import Mathlib

/-!
Verification of the resumable multi-file batch-conversion pipeline of the
ai-code-converter repository.  The Lean definitions below are shallow
embeddings of the Python sources under `src/src/`:

* `file_discovery.py`   — discovery engine (exclude patterns, priority sort);
* `progress_tracker.py` — the per-run progress state machine with persistence;
* `symbol_cache.py`     — the cross-file symbol-consistency cache;
* `multi_file_converter.py` — the orchestrator loop.

Machine floats of the sources (costs, wall-clock times) carry no arithmetic
that the verified claims depend on — they are stored, summed and divided, and
the persistence layer round-trips them verbatim — so they are modelled as
rationals.  Python dicts (insertion ordered, last write wins in place) are
modelled as association lists with an in-place-replacing insert; Python sets
as `Finset`.  The external translation oracle, the ambient clock and the
wall-timestamp strings are parameters of the run.
-/

/-! ### String helpers (Python `in`, `str.endswith`, `fnmatch.fnmatch`) -/

/-- Test whether the first character list is a leading segment of the second. -/
def leadsL : List Char → List Char → Bool
  | [], _ => true
  | _ :: _, [] => false
  | a :: as, b :: bs => a == b && leadsL as bs

/-- Test whether the first character list occurs contiguously in the second
(Python substring containment, `needle in haystack`). -/
def hasSubL (needle : List Char) : List Char → Bool
  | [] => leadsL needle []
  | c :: cs => leadsL needle (c :: cs) || hasSubL needle cs

/-- Python `sub in s` on strings. -/
def hasSub (s sub : String) : Bool := hasSubL sub.toList s.toList

/-- Python `s.endswith(suffix)`. -/
def endsWithB (s suffix : String) : Bool :=
  leadsL suffix.toList.reverse s.toList.reverse

/-- ASCII lowercasing of a character, as Python `str.lower` acts on the
ASCII file names the discovery engine sees. -/
def lowerChar (c : Char) : Char :=
  if 'A' ≤ c && c ≤ 'Z' then Char.ofNat (c.toNat + 32) else c

/-- Python `s.lower()` on ASCII strings. -/
def lowerStr (s : String) : String := String.mk (s.toList.map lowerChar)

/-- Shell-glob matching of `fnmatch.fnmatch` on POSIX (case preserved):
`*` matches any run of characters, `?` a single character, anything else
matches itself.  The exclude patterns of the source use only `*` and
literal characters.  The fuel argument only bounds the recursion (each step
shortens the pattern or the text, so `p.length + s.length + 1` always
suffices); it keeps the function structurally recursive. -/
def globMatchF : Nat → List Char → List Char → Bool
  | 0, _, _ => false
  | fuel + 1, p, s =>
    match p, s with
    | [], [] => true
    | [], _ :: _ => false
    | '*' :: ps, [] => globMatchF fuel ps []
    | '*' :: ps, c :: cs =>
        globMatchF fuel ps (c :: cs) || globMatchF fuel ('*' :: ps) cs
    | '?' :: _, [] => false
    | '?' :: ps, _ :: cs => globMatchF fuel ps cs
    | _ :: _, [] => false
    | q :: ps, c :: cs => q == c && globMatchF fuel ps cs

/-- Glob matching with the always-sufficient fuel. -/
def globMatch (p s : List Char) : Bool := globMatchF (p.length + s.length + 1) p s

/-- `fnmatch.fnmatch(name, pattern)`. -/
def fnmatchB (name pat : String) : Bool := globMatch pat.toList name.toList

/-! ### Discovery engine (`file_discovery.py`) -/

/-- `FileDiscovery.DEFAULT_EXCLUDE_PATTERNS`, verbatim from the source. -/
def DEFAULT_EXCLUDE_PATTERNS : List String :=
  ["*.pyc", "*.pyo", "*.pyd", ".DS_Store",
   "*.so", "*.dylib", "*.dll", "*.class",
   "*.min.js", "*.map", "*.test.*", "*.spec.*",
   "*_test.py", "test_*.py", "conftest.py",
   "setup.py", "__init__.py"]

/-- The active exclude-pattern set of `FileDiscovery.__init__`: the defaults,
with every pattern containing a "test" or "spec" substring removed when
`include_tests` is set. -/
def activeExcludePatterns (include_tests : Bool) : List String :=
  if include_tests then
    DEFAULT_EXCLUDE_PATTERNS.filter (fun p => !(hasSub p "test" || hasSub p "spec"))
  else DEFAULT_EXCLUDE_PATTERNS

/-- `FileDiscovery._should_include_file` for a Python run over a flat directory
with no ignore file: the name must end in `.py`, match no active exclude
pattern (glob on the basename), and the size must not exceed the fixed
100 KB cap. -/
def shouldIncludeFile (name : String) (sizeBytes : Nat) (pats : List String) : Bool :=
  endsWithB name ".py" && pats.all (fun pat => !fnmatchB name pat) && !(sizeBytes > 100000)

/-- `FileDiscovery._sort_by_importance.importance_score`, on the lowercased
basename and root-relative path. -/
def importanceScore (name0 path0 : String) : Nat :=
  let name := lowerStr name0
  let path := lowerStr path0
  if name ∈ ["main.py", "app.py", "__main__.py", "index.js", "index.ts"] then 0
  else if hasSub name "config" || hasSub name "settings" then 1
  else if hasSub path "model" || hasSub path "schema" then 2
  else if hasSub path "route" || hasSub path "view" || hasSub path "controller"
          || hasSub path "handler" then 3
  else if hasSub path "service" || hasSub path "manager" then 4
  else if hasSub path "database" || hasSub path "db" || hasSub path "repository"
          || hasSub path "repo" then 5
  else if hasSub path "util" || hasSub path "helper" then 6
  else if hasSub path "test" then 8
  else 7

/-- Score of a file in a flat directory, where basename and relative path
coincide. -/
def flatScore (name : String) : Nat := importanceScore name name

/-- Stable insertion of a name into a list already sorted by `flatScore`,
placing it before the first entry of equal or larger score (so that, as in
the stable `sorted` of Python, earlier input stays earlier on ties). -/
def insertRank (x : String) : List String → List String
  | [] => [x]
  | y :: ys => if flatScore x ≤ flatScore y then x :: y :: ys else y :: insertRank x ys

/-- `FileDiscovery._sort_by_importance` for a flat directory: a stable sort by
`importance_score`. -/
def sortByImportanceFlat (l : List String) : List String := l.foldr insertRank []

/-- `FileDiscovery.discover_files` for a flat directory with no `.gitignore`:
collect (in traversal order) the files passing `_should_include_file`,
stopping at `max_files`, then sort by importance and truncate to
`max_files`. -/
def discoverFlat (files : List (String × Nat)) (max_files : Nat)
    (include_tests : Bool) : List String :=
  let pats := activeExcludePatterns include_tests
  let collected :=
    ((files.filter (fun f => shouldIncludeFile f.1 f.2 pats)).map (·.1)).take max_files
  (sortByImportanceFlat collected).take max_files

/-! ### Ordered dictionaries (Python `dict`) -/

/-- In-place upsert of a Python dict (`d[k] = v`): an existing key keeps its
position and gets the new value, a fresh key is appended. -/
def dictInsert {α : Type} : List (String × α) → String → α → List (String × α)
  | [], k, v => [(k, v)]
  | (k0, v0) :: rest, k, v =>
      if k0 = k then (k, v) :: rest else (k0, v0) :: dictInsert rest k v

/-- Lookup after an upsert of the same key yields the upserted value. -/
theorem lookup_dictInsert_self {α : Type} (l : List (String × α)) (k : String) (v : α) :
    (dictInsert l k v).lookup k = some v := by
  induction l with
  | nil => simp [dictInsert, List.lookup]
  | cons hd tl ih =>
    obtain ⟨k0, v0⟩ := hd
    by_cases h : k0 = k
    · simp [dictInsert, h, List.lookup]
    · have hbeq : (k == k0) = false := beq_eq_false_iff_ne.mpr (Ne.symm h)
      simp [dictInsert, h, List.lookup, hbeq, ih]

/-- Upserting one key does not change lookups of other keys. -/
theorem lookup_dictInsert_ne {α : Type} (l : List (String × α)) (k s : String) (v : α)
    (h : s ≠ k) : (dictInsert l k v).lookup s = l.lookup s := by
  have hbeq : (s == k) = false := beq_eq_false_iff_ne.mpr h
  induction l with
  | nil => simp [dictInsert, List.lookup, hbeq]
  | cons hd tl ih =>
    obtain ⟨k0, v0⟩ := hd
    by_cases hk : k0 = k
    · subst hk
      simp [dictInsert, List.lookup, hbeq]
    · simp only [dictInsert, if_neg hk, List.lookup]
      by_cases hs : k0 = s
      · simp [hs]
      · have hbeq0 : (s == k0) = false := beq_eq_false_iff_ne.mpr (Ne.symm hs)
        simp [hbeq0, ih]

/-- Membership in the key list of an upserted dict. -/
theorem mem_keys_dictInsert {α : Type} (l : List (String × α)) (k s : String) (v : α) :
    s ∈ (dictInsert l k v).map Prod.fst ↔ s = k ∨ s ∈ l.map Prod.fst := by
  induction l with
  | nil => simp [dictInsert]
  | cons hd tl ih =>
    obtain ⟨k0, v0⟩ := hd
    by_cases h : k0 = k
    · subst h
      simp [dictInsert]
    · simp only [dictInsert, if_neg h, List.map_cons, List.mem_cons, ih]
      tauto

/-- A key present in the key list has a successful lookup. -/
theorem lookup_isSome_of_mem_keys {α : Type} (l : List (String × α)) (s : String)
    (h : s ∈ l.map Prod.fst) : ∃ t, l.lookup s = some t := by
  induction l with
  | nil => simp at h
  | cons hd tl ih =>
    obtain ⟨k0, v0⟩ := hd
    by_cases hk : k0 = s
    · exact ⟨v0, by simp [List.lookup, hk]⟩
    · simp only [List.map_cons, List.mem_cons] at h
      rcases h with h | h
      · exact absurd h.symm hk
      · obtain ⟨t, ht⟩ := ih h
        have hbeq : (s == k0) = false := beq_eq_false_iff_ne.mpr (Ne.symm hk)
        exact ⟨t, by simp [List.lookup, hbeq, ht]⟩

/-! ### Progress tracker (`progress_tracker.py`) -/

/-- An entry of `ProgressTracker.failed_files`: the dict
`{file, error, timestamp}` appended by `fail_file`. -/
structure FailedEntry where
  file : String
  error : String
  timestamp : String
deriving DecidableEq

/-- `ProgressTracker.stats`, the four running statistics. -/
structure TrackerStats where
  average_tokens_per_file : ℚ
  average_time_per_file : ℚ
  estimated_total_cost : ℚ
  estimated_time_remaining : ℚ
deriving DecidableEq

/-- Zero statistics, as in `ProgressTracker.__init__`. -/
def TrackerStats.zero : TrackerStats := ⟨0, 0, 0, 0⟩

/-- The in-memory state of a `ProgressTracker` (the state file path is fixed
by the orchestrator, which always passes an output directory, so it is not
part of the state). -/
structure ProgressTracker where
  total_files : Nat
  completed_files : List String
  failed_files : List FailedEntry
  skipped_files : List String
  current_file : Option String
  start_time : ℚ
  file_start_time : Option ℚ
  total_tokens : Nat
  total_cost : ℚ
  tokens_per_file : List (String × Nat)
  cost_per_file : List (String × ℚ)
  stats : TrackerStats
deriving DecidableEq

/-- `ProgressTracker.__init__(total_files, output_dir)` at wall time `now`. -/
def freshTracker (total_files : Nat) (now : ℚ) : ProgressTracker :=
  { total_files := total_files
    completed_files := []
    failed_files := []
    skipped_files := []
    current_file := none
    start_time := now
    file_start_time := none
    total_tokens := 0
    total_cost := 0
    tokens_per_file := []
    cost_per_file := []
    stats := TrackerStats.zero }

/-- `ProgressTracker._update_statistics` at wall time `now`.  Only the
`stats` field changes. -/
def updateStatistics (t : ProgressTracker) (now : ℚ) : ProgressTracker :=
  let processed := t.completed_files.length
  let newStats : TrackerStats :=
    if processed > 0 then
      let avgTokens :=
        if t.tokens_per_file ≠ [] then
          ((t.tokens_per_file.map (fun kv => (kv.2 : ℚ))).sum) / (t.tokens_per_file.length : ℚ)
        else t.stats.average_tokens_per_file
      let avgTime := (now - t.start_time) / (processed : ℚ)
      let avgCost := t.total_cost / (processed : ℚ)
      let remaining := (t.total_files : ℚ) - (processed : ℚ) - (t.failed_files.length : ℚ)
      { average_tokens_per_file := avgTokens
        average_time_per_file := avgTime
        estimated_total_cost := avgCost * (t.total_files : ℚ)
        estimated_time_remaining := remaining * avgTime }
    else t.stats
  { t with stats := newStats }

/-- `ProgressTracker.start_file` (display bookkeeping only). -/
def startFile (t : ProgressTracker) (path : String) (now : ℚ) : ProgressTracker :=
  { t with current_file := some path, file_start_time := some now }

/-- `ProgressTracker.complete_file(path, tokens_used, cost)` at wall time
`now`.  The token and cost accumulators are only touched when the passed
values are truthy (non-zero), exactly as in the source. -/
def completeFile (t : ProgressTracker) (path : String) (tokens : Nat) (cost : ℚ)
    (now : ℚ) : ProgressTracker :=
  let t1 := { t with completed_files := t.completed_files ++ [path], current_file := none }
  let t2 :=
    if tokens ≠ 0 then
      { t1 with tokens_per_file := dictInsert t1.tokens_per_file path tokens
                total_tokens := t1.total_tokens + tokens }
    else t1
  let t3 :=
    if cost ≠ 0 then
      { t2 with cost_per_file := dictInsert t2.cost_per_file path cost
                total_cost := t2.total_cost + cost }
    else t2
  updateStatistics t3 now

/-- `complete_file` ends by saving the state exactly when the new completed
count is a multiple of 5 (`len(self.completed_files) % 5 == 0`). -/
def completeTriggersSave (tAfter : ProgressTracker) : Bool :=
  tAfter.completed_files.length % 5 == 0

/-- `ProgressTracker.fail_file(path, error)`; the timestamp string is the
ambient `datetime.now().isoformat()`.  It always ends by saving the state,
which the run model records as a persist event. -/
def failFile (t : ProgressTracker) (path error timestamp : String) : ProgressTracker :=
  { t with failed_files := t.failed_files ++ [⟨path, error, timestamp⟩]
           current_file := none }

/-- `ProgressTracker.skip_file(path, reason)` (the reason is only printed). -/
def skipFile (t : ProgressTracker) (path : String) : ProgressTracker :=
  { t with skipped_files := t.skipped_files ++ [path] }

/-- `ProgressTracker.should_process_file`. -/
def shouldProcessFile (t : ProgressTracker) (path : String) : Bool :=
  !(decide (path ∈ t.completed_files))
    && !(decide (path ∈ t.failed_files.map (·.file)))
    && !(decide (path ∈ t.skipped_files))

/-! ### Tracker persistence (`save_state` / `load_state`) -/

/-- The parsed content of a `.conversion_state.json` file.  Each field is
optional: `load_state` raises a `KeyError` (caught by its blanket handler)
on a missing key, except `skipped_files`, which is read with a default. -/
structure StateFileJson where
  total_files : Option Nat
  completed_files : Option (List String)
  failed_files : Option (List FailedEntry)
  skipped_files : Option (List String)
  total_tokens : Option Nat
  total_cost : Option ℚ
  tokens_per_file : Option (List (String × Nat))
  cost_per_file : Option (List (String × ℚ))
  start_time : Option ℚ
  stats : Option TrackerStats
  timestamp : Option String
deriving DecidableEq

/-- `ProgressTracker.save_state`: the JSON record written to the state file
(the ambient `datetime.now().isoformat()` is the `ts` parameter). -/
def saveState (t : ProgressTracker) (ts : String) : StateFileJson :=
  { total_files := some t.total_files
    completed_files := some t.completed_files
    failed_files := some t.failed_files
    skipped_files := some t.skipped_files
    total_tokens := some t.total_tokens
    total_cost := some t.total_cost
    tokens_per_file := some t.tokens_per_file
    cost_per_file := some t.cost_per_file
    start_time := some t.start_time
    stats := some t.stats
    timestamp := some ts }

/-- `ProgressTracker.load_state`: `none` stands for a missing file or a JSON
parse failure (the exception fires before any field is assigned).  For a
parsed record the fields are assigned one at a time in source order; a
missing required key raises mid-sequence, which the blanket handler turns
into a `false` return, leaving the fields assigned so far overwritten.
`skipped_files` is read with `state.get("skipped_files", [])` and therefore
never raises. -/
def loadState (file : Option StateFileJson) (t : ProgressTracker) :
    Bool × ProgressTracker :=
  match file with
  | none => (false, t)
  | some st =>
    match st.total_files with
    | none => (false, t)
    | some v1 =>
      let t := { t with total_files := v1 }
      match st.completed_files with
      | none => (false, t)
      | some v2 =>
        let t := { t with completed_files := v2 }
        match st.failed_files with
        | none => (false, t)
        | some v3 =>
          let t := { t with failed_files := v3 }
          let t := { t with skipped_files := st.skipped_files.getD [] }
          match st.total_tokens with
          | none => (false, t)
          | some v5 =>
            let t := { t with total_tokens := v5 }
            match st.total_cost with
            | none => (false, t)
            | some v6 =>
              let t := { t with total_cost := v6 }
              match st.tokens_per_file with
              | none => (false, t)
              | some v7 =>
                let t := { t with tokens_per_file := v7 }
                match st.cost_per_file with
                | none => (false, t)
                | some v8 =>
                  let t := { t with cost_per_file := v8 }
                  match st.start_time with
                  | none => (false, t)
                  | some v9 =>
                    let t := { t with start_time := v9 }
                    match st.stats with
                    | none => (false, t)
                    | some v10 => (true, { t with stats := v10 })

/-! ### Symbol cache (`symbol_cache.py`) -/

/-- `SymbolCache.stats`. -/
structure CacheStats where
  total_symbols : Nat
  reused_symbols : Nat
  files_processed : Nat
deriving DecidableEq

/-- A discovered pattern: a free-form JSON dict of strings. -/
abbrev CachePattern : Type := List (String × String)

/-- The in-memory state of a `SymbolCache`.  The processed-file set is a
Python `set`. -/
structure SymbolCache where
  symbol_mappings : List (String × String)
  (type_mappings import_mappings function_mappings class_mappings : List (String × String))
  patterns : List CachePattern
  processed_files : Finset String
  stats : CacheStats
deriving DecidableEq

/-- `SymbolCache.__init__`. -/
def emptyCache : SymbolCache :=
  { symbol_mappings := []
    type_mappings := []
    import_mappings := []
    function_mappings := []
    class_mappings := []
    patterns := []
    processed_files := ∅
    stats := ⟨0, 0, 0⟩ }

/-- `SymbolCache.add_conversion(source, target, symbol_type)`: always writes
the general `symbol_mappings` table, additionally the table of the named
category, and bumps the total-symbols counter. -/
def addConversion (c : SymbolCache) (src tgt symbolType : String) : SymbolCache :=
  let c := { c with symbol_mappings := dictInsert c.symbol_mappings src tgt }
  let c :=
    if symbolType = "class" then
      { c with class_mappings := dictInsert c.class_mappings src tgt }
    else if symbolType = "function" then
      { c with function_mappings := dictInsert c.function_mappings src tgt }
    else if symbolType = "type" then
      { c with type_mappings := dictInsert c.type_mappings src tgt }
    else if symbolType = "import" then
      { c with import_mappings := dictInsert c.import_mappings src tgt }
    else c
  { c with stats := { c.stats with total_symbols := c.stats.total_symbols + 1 } }

/-- `SymbolCache.get_conversion(source)`: a hit bumps the reuse counter and
returns the general mapping, a miss leaves the cache unchanged. -/
def getConversion (c : SymbolCache) (src : String) : Option String × SymbolCache :=
  match c.symbol_mappings.lookup src with
  | some tgt =>
      (some tgt, { c with stats := { c.stats with reused_symbols := c.stats.reused_symbols + 1 } })
  | none => (none, c)

/-- `SymbolCache.mark_file_processed`. -/
def markFileProcessed (c : SymbolCache) (path : String) : SymbolCache :=
  { c with processed_files := insert path c.processed_files
           stats := { c.stats with files_processed := c.stats.files_processed + 1 } }

/-! ### Cache persistence (`save_to_file` / `load_from_file`) -/

/-- The parsed content of a `symbol_cache.json` file.  `load_from_file` reads
every key with `dict.get` and a default, so a parsed dict always loads in
full; only a missing/corrupt file (modelled as `none` at the call site)
fails, and it fails before any field is assigned. -/
structure CacheFileJson where
  symbol_mappings : List (String × String)
  (type_mappings import_mappings function_mappings class_mappings : List (String × String))
  patterns : List CachePattern
  processed_files : List String
  stats : CacheStats
deriving DecidableEq

/-- `SymbolCache.save_to_file`: the JSON record written out; the processed
set is serialised as `list(self.processed_files)` (an arbitrary enumeration
of the set — here its sorted one). -/
def saveCache (c : SymbolCache) : CacheFileJson :=
  { symbol_mappings := c.symbol_mappings
    type_mappings := c.type_mappings
    import_mappings := c.import_mappings
    function_mappings := c.function_mappings
    class_mappings := c.class_mappings
    patterns := c.patterns
    processed_files := c.processed_files.sort (· ≤ ·)
    stats := c.stats }

/-- `SymbolCache.load_from_file`: a missing or unparsable file returns
`false` with the cache untouched; a parsed dict replaces every field
(`processed_files` via `set(...)`). -/
def loadCache (file : Option CacheFileJson) (c : SymbolCache) : Bool × SymbolCache :=
  match file with
  | none => (false, c)
  | some d =>
      (true,
        { symbol_mappings := d.symbol_mappings
          type_mappings := d.type_mappings
          import_mappings := d.import_mappings
          function_mappings := d.function_mappings
          class_mappings := d.class_mappings
          patterns := d.patterns
          processed_files := d.processed_files.toFinset
          stats := d.stats })

/-! ### Orchestrator (`multi_file_converter.py`) -/

/-- Outcome of the body of `MultiFileConverter._convert_single_file` for one
file, as seen from its blanket `try/except`: the oracle call chain either
returns a successful result (with the converted text and usage numbers),
returns an unsuccessful result dict (`success: False` with an error
message), or raises an exception that escapes into the handler. -/
inductive OracleOutcome where
  | success (tokens : Nat) (cost : ℚ) (code : String)
  | failure (error : String)
  | exn (error : String)
deriving DecidableEq

/-- The ambient collaborators of a run: the translation oracle (keyed by
file path), the language-pair symbol-extraction heuristic (out of scope per
the spec, kept abstract), the wall clock and the timestamp strings, both
indexed by the number of files processed so far. -/
structure LoopEnv where
  oracle : String → OracleOutcome
  extract : String → SymbolCache → SymbolCache
  clock : Nat → ℚ
  stamp : Nat → String

/-- The counters of the `results` dict of `convert_project`. -/
structure RunResults where
  files_processed : Nat
  files_succeeded : Nat
  files_failed : Nat
deriving DecidableEq

/-- Observable events of a run: a per-file outcome recorded in the tracker,
and a persist of the RunState to stable storage. -/
inductive RunEvent where
  | outcome (path : String) (success : Bool)
  | persist
deriving DecidableEq

/-- The state threaded through the `convert_project` loop, plus the emitted
event trace and the list of files actually handed to
`_convert_single_file`. -/
structure LoopState where
  tracker : ProgressTracker
  cache : SymbolCache
  results : RunResults
  trace : List RunEvent
  processed : List String
deriving DecidableEq

/-- The loop state just after `convert_project` constructs its tracker
(fresh or populated by `load_state`) and cache. -/
def mkInit (t0 : ProgressTracker) (c0 : SymbolCache) : LoopState :=
  { tracker := t0, cache := c0, results := ⟨0, 0, 0⟩, trace := [], processed := [] }

/-- A run from scratch: fresh tracker over `n` candidates, empty cache. -/
def initLoopState (n : Nat) (now : ℚ) : LoopState :=
  mkInit (freshTracker n now) emptyCache

/-- The `try` body of `_convert_single_file` (after `start_file`): an
escaping exception is an `Except.error`; otherwise the oracle result decides
between the completed branch (extract symbols, save output, `complete_file`,
`mark_file_processed`) and the failed branch (`fail_file`). -/
def convertBody (env : LoopEnv) (path : String) (st : LoopState) (step : Nat) :
    Except String (Bool × LoopState) :=
  match env.oracle path with
  | .exn e => .error e
  | .failure e =>
      .ok (false, { st with tracker := failFile st.tracker path e (env.stamp step) })
  | .success tok cost code =>
      let cache1 := markFileProcessed (env.extract code st.cache) path
      .ok (true,
        { st with tracker := completeFile st.tracker path tok cost (env.clock step)
                  cache := cache1 })

/-- `MultiFileConverter._convert_single_file`: `start_file`, then the body
under a blanket handler that converts any exception into a `fail_file`
transition and a `False` return — nothing propagates to the caller. -/
def convertSingleFile (env : LoopEnv) (path : String) (st : LoopState) (step : Nat) :
    Bool × LoopState :=
  let st0 := { st with tracker := startFile st.tracker path (env.clock step) }
  match convertBody env path st0 step with
  | .error e =>
      (false, { st0 with tracker := failFile st0.tracker path e (env.stamp step) })
  | .ok r => r

/-- One guarded-and-taken iteration of the `convert_project` loop (lines
185-205): convert the candidate, update the result counters, and record the
persists issued by `complete_file` (every 5th completion), by `fail_file`
(always) and by the loop itself (every 5th processed file).  Returns the
success flag and the new loop state. -/
def loopStep (env : LoopEnv) (c : String) (st : LoopState) : Bool × LoopState :=
  let step := st.results.files_processed
  let r := convertSingleFile env c st step
  let succ := r.1
  let st1 := r.2
  let opEvents :=
    if succ then
      if completeTriggersSave st1.tracker then
        [RunEvent.outcome c true, RunEvent.persist]
      else [RunEvent.outcome c true]
    else [RunEvent.outcome c false, RunEvent.persist]
  let results1 : RunResults :=
    { files_processed := st.results.files_processed + 1
      files_succeeded := st.results.files_succeeded + (if succ then 1 else 0)
      files_failed := st.results.files_failed + (if succ then 0 else 1) }
  let periodic := if results1.files_processed % 5 == 0 then [RunEvent.persist] else []
  (succ,
    { st1 with results := results1
               trace := st1.trace ++ opEvents ++ periodic
               processed := st1.processed ++ [c] })

/-- The per-file loop of `convert_project` (lines 178-205): consult
`should_process_file` for each candidate, run the iteration, and stop early
on a failure when `continue_on_error` is off. -/
def runLoop (env : LoopEnv) (contOnErr : Bool) :
    List String → LoopState → LoopState
  | [], st => st
  | c :: rest, st =>
    if shouldProcessFile st.tracker c then
      let r := loopStep env c st
      if !r.1 && !contOnErr then r.2 else runLoop env contOnErr rest r.2
    else runLoop env contOnErr rest st

/-- `convert_project` from the start of the loop to the end of the run: the
loop followed by the unconditional final `_save_state`. -/
def runProject (env : LoopEnv) (contOnErr : Bool) (cands : List String)
    (st : LoopState) : LoopState :=
  let o := runLoop env contOnErr cands st
  { o with trace := o.trace ++ [RunEvent.persist] }

/-! ### Resume / estimation control flow of `convert_project` (lines 129-161) -/

/-- The observable decisions of `convert_project` before its loop. -/
structure ControlOut where
  loaded_state : Bool
  estimated : Bool
  confirmation_requested : Bool
  converts : Bool
  dry_run_return : Bool
deriving DecidableEq

/-- Python truthiness of the `resume_from` argument (`None` or an empty
string are falsy). -/
def truthyResume : Option String → Bool
  | none => false
  | some s => !s.isEmpty

/-- The pre-loop control flow of `convert_project`: prior state is loaded
only when `resume_from` is truthy and the path exists; estimation, the
dry-run early return and the interactive confirmation happen only when
`resume_from` is falsy. -/
def convertProjectControl (resume_from : Option String) (pathExists : String → Bool)
    (dry_run confirm : Bool) : ControlOut :=
  let loaded := truthyResume resume_from && pathExists (resume_from.getD "")
  if truthyResume resume_from then
    { loaded_state := loaded, estimated := false, confirmation_requested := false
      converts := true, dry_run_return := false }
  else if dry_run then
    { loaded_state := loaded, estimated := true, confirmation_requested := false
      converts := false, dry_run_return := true }
  else
    { loaded_state := loaded, estimated := true, confirmation_requested := true
      converts := confirm, dry_run_return := false }

/-! ### The guarded bucket-transition schema of the orchestrator -/

/-- A terminal transition the tracker offers for a candidate:
`complete_file`, `fail_file` or `skip_file` with their ambient
arguments. -/
inductive TrackerOp where
  | complete (path : String) (tokens : Nat) (cost : ℚ) (now : ℚ)
  | fail (path error timestamp : String)
  | skip (path reason : String)

/-- The candidate a transition concerns. -/
def TrackerOp.path : TrackerOp → String
  | .complete p _ _ _ => p
  | .fail p _ _ => p
  | .skip p _ => p

/-- Application of a transition to the tracker. -/
def applyOp (t : ProgressTracker) : TrackerOp → ProgressTracker
  | .complete p tok cost now => completeFile t p tok cost now
  | .fail p e ts => failFile t p e ts
  | .skip p _ => skipFile t p

/-- One orchestrator consideration of a candidate: the transition fires only
if `should_process_file` allows it (`convert_project` line 182) — each
candidate is considered at most once and is left pending otherwise. -/
def guardedStep (t : ProgressTracker) (op : TrackerOp) : ProgressTracker :=
  if shouldProcessFile t op.path then applyOp t op else t

/-- A run of guarded transitions. -/
def guardedRun (ops : List TrackerOp) (t : ProgressTracker) : ProgressTracker :=
  ops.foldl guardedStep t

/-! ### Bucket projections of the tracker operations -/

theorem updateStatistics_completed (t : ProgressTracker) (now : ℚ) :
    (updateStatistics t now).completed_files = t.completed_files := rfl

theorem updateStatistics_failed (t : ProgressTracker) (now : ℚ) :
    (updateStatistics t now).failed_files = t.failed_files := rfl

theorem updateStatistics_skipped (t : ProgressTracker) (now : ℚ) :
    (updateStatistics t now).skipped_files = t.skipped_files := rfl

theorem completeFile_completed (t : ProgressTracker) (p : String) (tok : Nat)
    (cost now : ℚ) :
    (completeFile t p tok cost now).completed_files = t.completed_files ++ [p] := by
  unfold completeFile
  rw [updateStatistics_completed]
  split <;> split <;> rfl

theorem completeFile_failed (t : ProgressTracker) (p : String) (tok : Nat)
    (cost now : ℚ) :
    (completeFile t p tok cost now).failed_files = t.failed_files := by
  unfold completeFile
  rw [updateStatistics_failed]
  split <;> split <;> rfl

theorem completeFile_skipped (t : ProgressTracker) (p : String) (tok : Nat)
    (cost now : ℚ) :
    (completeFile t p tok cost now).skipped_files = t.skipped_files := by
  unfold completeFile
  rw [updateStatistics_skipped]
  split <;> split <;> rfl

theorem failFile_completed (t : ProgressTracker) (p e ts : String) :
    (failFile t p e ts).completed_files = t.completed_files := rfl

theorem failFile_failed (t : ProgressTracker) (p e ts : String) :
    (failFile t p e ts).failed_files = t.failed_files ++ [⟨p, e, ts⟩] := rfl

theorem failFile_skipped (t : ProgressTracker) (p e ts : String) :
    (failFile t p e ts).skipped_files = t.skipped_files := rfl

theorem startFile_buckets (t : ProgressTracker) (p : String) (now : ℚ) :
    (startFile t p now).completed_files = t.completed_files ∧
    (startFile t p now).failed_files = t.failed_files ∧
    (startFile t p now).skipped_files = t.skipped_files := ⟨rfl, rfl, rfl⟩

/-- `should_process_file` answers membership in the three terminal buckets. -/
theorem shouldProcessFile_iff (t : ProgressTracker) (p : String) :
    shouldProcessFile t p = true ↔
      p ∉ t.completed_files ∧ p ∉ t.failed_files.map (·.file) ∧ p ∉ t.skipped_files := by
  simp [shouldProcessFile, and_assoc]

/-- `should_process_file` depends only on the three buckets. -/
theorem shouldProcessFile_congr (t t' : ProgressTracker) (p : String)
    (hc : t'.completed_files = t.completed_files)
    (hf : t'.failed_files = t.failed_files)
    (hs : t'.skipped_files = t.skipped_files) :
    shouldProcessFile t' p = shouldProcessFile t p := by
  simp [shouldProcessFile, hc, hf, hs]

/-- Completing one candidate does not change whether a different one should
be processed. -/
theorem shouldProcessFile_completeFile_ne (t : ProgressTracker) (c p : String)
    (tok : Nat) (cost now : ℚ) (h : p ≠ c) :
    shouldProcessFile (completeFile t c tok cost now) p = shouldProcessFile t p := by
  simp [shouldProcessFile, completeFile_completed, completeFile_failed,
    completeFile_skipped, h]

/-- Failing one candidate does not change whether a different one should be
processed. -/
theorem shouldProcessFile_failFile_ne (t : ProgressTracker) (c p e ts : String)
    (h : p ≠ c) :
    shouldProcessFile (failFile t c e ts) p = shouldProcessFile t p := by
  simp [shouldProcessFile, failFile_completed, failFile_failed, failFile_skipped, h]

/-! ### Cache operation projections -/

/-- `add_conversion` writes the general table independently of the
category. -/
theorem addConversion_symbol_mappings (c : SymbolCache) (s t k : String) :
    (addConversion c s t k).symbol_mappings = dictInsert c.symbol_mappings s t := by
  unfold addConversion
  split_ifs <;> rfl

/-- The first component of `get_conversion` is the general lookup. -/
theorem getConversion_fst (c : SymbolCache) (s : String) :
    (getConversion c s).1 = c.symbol_mappings.lookup s := by
  unfold getConversion
  cases h : c.symbol_mappings.lookup s <;> simp [h]

/-- A key of any category table of `add_conversion` is the added key or a
key the table already had. -/
theorem addConversion_cat_keys (c : SymbolCache) (a b k s : String) :
    (s ∈ (addConversion c a b k).class_mappings.map Prod.fst →
        s = a ∨ s ∈ c.class_mappings.map Prod.fst) ∧
    (s ∈ (addConversion c a b k).function_mappings.map Prod.fst →
        s = a ∨ s ∈ c.function_mappings.map Prod.fst) ∧
    (s ∈ (addConversion c a b k).type_mappings.map Prod.fst →
        s = a ∨ s ∈ c.type_mappings.map Prod.fst) ∧
    (s ∈ (addConversion c a b k).import_mappings.map Prod.fst →
        s = a ∨ s ∈ c.import_mappings.map Prod.fst) := by
  unfold addConversion
  split_ifs <;>
    refine ⟨?_, ?_, ?_, ?_⟩ <;> intro h <;>
    simp only [mem_keys_dictInsert] at h ⊢ <;> tauto

/-! ### Claim C1 -/

/-- Claim C1: persisting a `ProgressTracker` RunState and loading the file
back restores every persisted field (total files, the three buckets, token
and cost totals, the per-file maps, the start time and the statistics), into
whatever tracker instance performs the load; persisting a `SymbolCache`
CacheState and loading it back restores the cache exactly. -/
theorem persist_load_roundtrip :
    (∀ (s t : ProgressTracker) (ts : String),
        loadState (some (saveState s ts)) t =
          (true,
            { t with
              total_files := s.total_files
              completed_files := s.completed_files
              failed_files := s.failed_files
              skipped_files := s.skipped_files
              total_tokens := s.total_tokens
              total_cost := s.total_cost
              tokens_per_file := s.tokens_per_file
              cost_per_file := s.cost_per_file
              start_time := s.start_time
              stats := s.stats })) ∧
    (∀ c t : SymbolCache, loadCache (some (saveCache c)) t = (true, c)) := by
  constructor
  · intro s t ts
    rfl
  · intro c t
    cases c
    simp [loadCache, saveCache, Finset.sort_toFinset]

/-! ### Claim C8 -/

/-- Claim C8: from any cache state, adding the mapping Foo→Bar in category
class makes `Lookup("Foo")` return Bar, and a subsequent add of Foo→Baz
overwrites it, so the lookup returns Baz — later writes for the same key
win. -/
theorem cache_lookup_last_write_wins (c : SymbolCache) :
    (getConversion (addConversion c "Foo" "Bar" "class") "Foo").1 = some "Bar" ∧
    (getConversion (addConversion (addConversion c "Foo" "Bar" "class")
        "Foo" "Baz" "class") "Foo").1 = some "Baz" := by
  constructor <;>
    simp [getConversion_fst, addConversion_symbol_mappings, lookup_dictInsert_self]

/-! ### Claim C6 -/

/-- A parseable state file holding only the `total_files` key: loading it
fails after the first assignment. -/
def truncatedStateFile : StateFileJson :=
  { total_files := some 5
    completed_files := none
    failed_files := none
    skipped_files := none
    total_tokens := none
    total_cost := none
    tokens_per_file := none
    cost_per_file := none
    start_time := none
    stats := none
    timestamp := none }

/-- Claim C6 counterexample: loading a parseable RunState file that lacks a
required key returns false but leaves the tracker different from the freshly
constructed one — the `total_files` field was already overwritten — so the
failed load is not atomic and the state is not the fresh empty state. -/
theorem load_failure_fresh_state_cex :
    (loadState (some truncatedStateFile) (freshTracker 4 0)).1 = false ∧
    (loadState (some truncatedStateFile) (freshTracker 4 0)).2 ≠ freshTracker 4 0 := by
  decide

/-- Claim C6 amended: a missing or unparseable RunState or CacheState file
makes the load return false with the state untouched, so a fresh tracker and
cache stay fresh; a parsed CacheState record always loads in full (the cache
load is atomic in every failure case); but a parseable RunState file missing
a required key returns false after overwriting the fields that precede the
missing key, as the counterexample shows. -/
theorem load_failure_fresh_state :
    (∀ t : ProgressTracker, loadState none t = (false, t)) ∧
    (∀ c : SymbolCache, loadCache none c = (false, c)) ∧
    (∀ (d : CacheFileJson) (c : SymbolCache), (loadCache (some d) c).1 = true) := by
  exact ⟨fun t => rfl, fun c => rfl, fun d c => rfl⟩

/-! ### Claim C9 -/

/-- A run of `AddMapping` operations (source, target, category) from a given
cache. -/
def applyAdds (ops : List (String × String × String)) (c : SymbolCache) : SymbolCache :=
  ops.foldl (fun c o => addConversion c o.1 o.2.1 o.2.2) c

/-- Claim C9 counterexample: after AddMapping(Foo,Bar,class) followed by
AddMapping(Foo,Baz,general), the class table still holds Foo→Bar but the
general table holds Foo→Baz — the class-category mapping is not present in
the general index with the same target. -/
theorem cache_mirror_cex :
    ("Foo", "Bar") ∈
        (applyAdds [("Foo", "Bar", "class"), ("Foo", "Baz", "general")]
          emptyCache).class_mappings ∧
    (applyAdds [("Foo", "Bar", "class"), ("Foo", "Baz", "general")]
          emptyCache).symbol_mappings.lookup "Foo" = some "Baz" ∧
    ("Foo", "Bar") ∉
        (applyAdds [("Foo", "Bar", "class"), ("Foo", "Baz", "general")]
          emptyCache).symbol_mappings := by
  decide

/-- The mirroring invariant that does hold: every source key of a
non-general category table also has an entry in the general table. -/
def MirrorInv (c : SymbolCache) : Prop :=
  ∀ s : String,
    (s ∈ c.class_mappings.map Prod.fst ∨ s ∈ c.function_mappings.map Prod.fst ∨
     s ∈ c.type_mappings.map Prod.fst ∨ s ∈ c.import_mappings.map Prod.fst) →
    ∃ t, c.symbol_mappings.lookup s = some t

/-- `add_conversion` preserves the key-mirroring invariant. -/
theorem mirrorInv_addConversion (c : SymbolCache) (a b k : String)
    (h : MirrorInv c) : MirrorInv (addConversion c a b k) := by
  intro s hs
  rw [addConversion_symbol_mappings]
  by_cases hsa : s = a
  · subst hsa
    exact ⟨b, lookup_dictInsert_self _ _ _⟩
  · rw [lookup_dictInsert_ne _ _ _ _ hsa]
    apply h
    obtain ⟨h1, h2, h3, h4⟩ := addConversion_cat_keys c a b k s
    rcases hs with hs | hs | hs | hs
    · rcases h1 hs with h | h
      · exact absurd h hsa
      · exact Or.inl h
    · rcases h2 hs with h | h
      · exact absurd h hsa
      · exact Or.inr (Or.inl h)
    · rcases h3 hs with h | h
      · exact absurd h hsa
      · exact Or.inr (Or.inr (Or.inl h))
    · rcases h4 hs with h | h
      · exact absurd h hsa
      · exact Or.inr (Or.inr (Or.inr h))

/-- Claim C9 amended: in every cache state reachable by `AddMapping`
operations from the empty cache, every source stored under a non-general
category is also present in the general index — an unscoped lookup finds a
target for it — and immediately after any `AddMapping(s,t,cat)` the general
entry for `s` is exactly `t`; a later add for the same source may overwrite
that general entry, so the general target need not stay equal to the
category target (see the counterexample). -/
theorem cache_mirror_invariant :
    (∀ (ops : List (String × String × String)) (s : String),
        (s ∈ (applyAdds ops emptyCache).class_mappings.map Prod.fst ∨
         s ∈ (applyAdds ops emptyCache).function_mappings.map Prod.fst ∨
         s ∈ (applyAdds ops emptyCache).type_mappings.map Prod.fst ∨
         s ∈ (applyAdds ops emptyCache).import_mappings.map Prod.fst) →
        ∃ t, (applyAdds ops emptyCache).symbol_mappings.lookup s = some t) ∧
    (∀ (c : SymbolCache) (s t cat : String),
        (addConversion c s t cat).symbol_mappings.lookup s = some t) := by
  constructor
  · have key : ∀ (ops : List (String × String × String)) (c : SymbolCache),
        MirrorInv c → MirrorInv (applyAdds ops c) := by
      intro ops
      induction ops with
      | nil => intro c h; exact h
      | cons o rest ih =>
          intro c h
          exact ih _ (mirrorInv_addConversion _ _ _ _ h)
    intro ops s
    exact key ops emptyCache (fun s hs => by simp [emptyCache] at hs) s
  · intro c s t cat
    rw [addConversion_symbol_mappings]
    exact lookup_dictInsert_self _ _ _

/-- Concrete instance of the amended C9 invariant. -/
theorem cache_mirror_invariant_witness :
    ("A" ∈ (applyAdds [("A", "B", "class")] emptyCache).class_mappings.map Prod.fst ∨
     "A" ∈ (applyAdds [("A", "B", "class")] emptyCache).function_mappings.map Prod.fst ∨
     "A" ∈ (applyAdds [("A", "B", "class")] emptyCache).type_mappings.map Prod.fst ∨
     "A" ∈ (applyAdds [("A", "B", "class")] emptyCache).import_mappings.map Prod.fst) ∧
    (∃ t, (applyAdds [("A", "B", "class")] emptyCache).symbol_mappings.lookup "A"
        = some t) :=
  ⟨by decide, cache_mirror_invariant.1 [("A", "B", "class")] "A" (by decide)⟩

/-! ### Claim C4 -/

/-- Claim C4 counterexample: for a directory holding exactly main.py,
config.py, util.py and test_foo.py, Discover with includeTests=false does
not return the four files in the claimed order — test_foo.py matches the
default exclude pattern test_*.py and is filtered out entirely. -/
theorem discovery_priority_cex :
    discoverFlat
        [("main.py", 10), ("config.py", 10), ("util.py", 10), ("test_foo.py", 10)]
        25 false ≠
      ["main.py", "config.py", "util.py", "test_foo.py"] := by
  decide

/-- Claim C4 amended: for that directory, Discover with includeTests=false
returns [main.py, config.py, util.py] (test files are excluded by the
default patterns, not ranked); with includeTests=true the patterns
containing "test" or "spec" are removed and Discover returns
[main.py, config.py, util.py, test_foo.py], with test_foo.py at rank 8 —
the lowest possible rank, strictly below the rank 7 of "everything else" —
so a test file sorts at a non-lowest rank only when another scoring rule
matches its path first. -/
theorem discovery_priority_order :
    discoverFlat
        [("main.py", 10), ("config.py", 10), ("util.py", 10), ("test_foo.py", 10)]
        25 false = ["main.py", "config.py", "util.py"] ∧
    discoverFlat
        [("main.py", 10), ("config.py", 10), ("util.py", 10), ("test_foo.py", 10)]
        25 true = ["main.py", "config.py", "util.py", "test_foo.py"] ∧
    flatScore "test_foo.py" = 8 ∧
    (∀ name rel : String, importanceScore name rel ≤ 8) := by
  refine ⟨by decide, by decide, by decide, ?_⟩
  intro name rel
  unfold importanceScore
  dsimp only
  split_ifs <;> omega

/-! ### Claim C10 -/

/-- Claim C10: with a truthy (non-empty) resumeFrom argument,
`convert_project` loads no estimate, requests no confirmation and proceeds
to convert regardless of dryRun; and when the resume path does not exist, no
prior state is loaded either, so the run converts from the freshly
constructed state. -/
theorem resume_skips_estimation (rf : Option String) (pathExists : String → Bool)
    (dry_run confirm : Bool) (h : truthyResume rf = true) :
    (convertProjectControl rf pathExists dry_run confirm).estimated = false ∧
    (convertProjectControl rf pathExists dry_run confirm).confirmation_requested = false ∧
    (convertProjectControl rf pathExists dry_run confirm).converts = true ∧
    (convertProjectControl rf pathExists dry_run confirm).dry_run_return = false ∧
    (pathExists (rf.getD "") = false →
      (convertProjectControl rf pathExists dry_run confirm).loaded_state = false) := by
  unfold convertProjectControl
  rw [h]
  refine ⟨rfl, rfl, rfl, rfl, ?_⟩
  intro hex
  simp [h, hex]

/-- Concrete instance of C10: resuming from a missing state file with
dryRun=true still converts, with neither estimation nor confirmation nor a
state load. -/
theorem resume_skips_estimation_witness :
    truthyResume (some "state.json") = true ∧
    ((convertProjectControl (some "state.json") (fun _ => false) true false).estimated
        = false ∧
      (convertProjectControl (some "state.json") (fun _ => false) true
          false).confirmation_requested = false ∧
      (convertProjectControl (some "state.json") (fun _ => false) true false).converts
        = true ∧
      (convertProjectControl (some "state.json") (fun _ => false) true
          false).dry_run_return = false ∧
      ((fun _ : String => false) ((some "state.json").getD "") = false →
        (convertProjectControl (some "state.json") (fun _ => false) true
            false).loaded_state = false)) :=
  ⟨by decide,
    resume_skips_estimation (some "state.json") (fun _ => false) true false (by decide)⟩

/-! ### Loop-step lemmas -/

/-- Whether the oracle outcome for a file is the successful one; this is
exactly the boolean `_convert_single_file` returns for it. -/
def oracleSucc (env : LoopEnv) (p : String) : Bool :=
  match env.oracle p with
  | .success _ _ _ => true
  | _ => false

theorem convertSingleFile_fst (env : LoopEnv) (c : String) (st : LoopState) (step : Nat) :
    (convertSingleFile env c st step).1 = oracleSucc env c := by
  unfold convertSingleFile convertBody oracleSucc
  cases henv : env.oracle c <;> simp [henv]

theorem convertSingleFile_state (env : LoopEnv) (c : String) (st : LoopState) (step : Nat) :
    (convertSingleFile env c st step).2.results = st.results ∧
    (convertSingleFile env c st step).2.trace = st.trace ∧
    (convertSingleFile env c st step).2.processed = st.processed := by
  unfold convertSingleFile convertBody
  cases henv : env.oracle c <;> simp [henv]

theorem convertSingleFile_tracker_success (env : LoopEnv) (c : String) (st : LoopState)
    (step : Nat) (tok : Nat) (cost : ℚ) (code : String)
    (h : env.oracle c = .success tok cost code) :
    (convertSingleFile env c st step).2.tracker =
      completeFile (startFile st.tracker c (env.clock step)) c tok cost (env.clock step) := by
  unfold convertSingleFile convertBody
  simp [h]

theorem convertSingleFile_tracker_failure (env : LoopEnv) (c : String) (st : LoopState)
    (step : Nat) (e : String) (h : env.oracle c = .failure e) :
    (convertSingleFile env c st step).2.tracker =
      failFile (startFile st.tracker c (env.clock step)) c e (env.stamp step) := by
  unfold convertSingleFile convertBody
  simp [h]

theorem convertSingleFile_tracker_exn (env : LoopEnv) (c : String) (st : LoopState)
    (step : Nat) (e : String) (h : env.oracle c = .exn e) :
    (convertSingleFile env c st step).2.tracker =
      failFile (startFile st.tracker c (env.clock step)) c e (env.stamp step) := by
  unfold convertSingleFile convertBody
  simp [h]

theorem shouldProcessFile_startFile (t : ProgressTracker) (c p : String) (now : ℚ) :
    shouldProcessFile (startFile t c now) p = shouldProcessFile t p := rfl

theorem convertSingleFile_shouldProcess_ne (env : LoopEnv) (c : String) (st : LoopState)
    (step : Nat) (p : String) (hp : p ≠ c) :
    shouldProcessFile (convertSingleFile env c st step).2.tracker p
      = shouldProcessFile st.tracker p := by
  cases henv : env.oracle c with
  | success tok cost code =>
      rw [convertSingleFile_tracker_success env c st step tok cost code henv,
        shouldProcessFile_completeFile_ne _ _ _ _ _ _ hp, shouldProcessFile_startFile]
  | failure e =>
      rw [convertSingleFile_tracker_failure env c st step e henv,
        shouldProcessFile_failFile_ne _ _ _ _ _ hp, shouldProcessFile_startFile]
  | exn e =>
      rw [convertSingleFile_tracker_exn env c st step e henv,
        shouldProcessFile_failFile_ne _ _ _ _ _ hp, shouldProcessFile_startFile]

theorem loopStep_fst (env : LoopEnv) (c : String) (st : LoopState) :
    (loopStep env c st).1 = oracleSucc env c := by
  simp [loopStep, convertSingleFile_fst]

theorem loopStep_processed (env : LoopEnv) (c : String) (st : LoopState) :
    (loopStep env c st).2.processed = st.processed ++ [c] := by
  simp [loopStep, (convertSingleFile_state env c st st.results.files_processed).2.2]

theorem loopStep_tracker (env : LoopEnv) (c : String) (st : LoopState) :
    (loopStep env c st).2.tracker
      = (convertSingleFile env c st st.results.files_processed).2.tracker := by
  simp [loopStep]

theorem loopStep_shouldProcess_ne (env : LoopEnv) (c : String) (st : LoopState)
    (p : String) (hp : p ≠ c) :
    shouldProcessFile (loopStep env c st).2.tracker p = shouldProcessFile st.tracker p := by
  rw [loopStep_tracker]
  exact convertSingleFile_shouldProcess_ne env c st _ p hp

theorem loopStep_results_processed (env : LoopEnv) (c : String) (st : LoopState) :
    (loopStep env c st).2.results.files_processed = st.results.files_processed + 1 := by
  simp [loopStep]

theorem loopStep_results_succeeded (env : LoopEnv) (c : String) (st : LoopState) :
    (loopStep env c st).2.results.files_succeeded
      = st.results.files_succeeded + (if oracleSucc env c then 1 else 0) := by
  simp [loopStep, convertSingleFile_fst]

/-- Filtering with pointwise equal predicates gives equal results. -/
theorem filterCongr {α : Type} (p q : α → Bool) :
    ∀ l : List α, (∀ x ∈ l, p x = q x) → l.filter p = l.filter q := by
  intro l
  induction l with
  | nil => intro _; rfl
  | cons x xs ih =>
    intro h
    have hx := h x (by simp)
    simp only [List.filter_cons, hx, ih (fun y hy => h y (by simp [hy]))]

/-! ### Loop characterisations -/

/-- With `continue_on_error` on, the loop hands to `_convert_single_file`
exactly those candidates that `should_process_file` allowed in the state the
loop started from. -/
theorem runLoop_processed_contTrue (env : LoopEnv) (cands : List String) :
    ∀ st : LoopState, cands.Nodup →
      (runLoop env true cands st).processed
        = st.processed ++ cands.filter (fun p => shouldProcessFile st.tracker p) := by
  induction cands with
  | nil => intro st _; simp [runLoop]
  | cons c rest ih =>
    intro st hnd
    obtain ⟨hc, hrest⟩ := List.nodup_cons.mp hnd
    by_cases hg : shouldProcessFile st.tracker c
    · have hstep : runLoop env true (c :: rest) st
          = runLoop env true rest (loopStep env c st).2 := by
        simp [runLoop, hg]
      have hfil : rest.filter (fun p => shouldProcessFile (loopStep env c st).2.tracker p)
          = rest.filter (fun p => shouldProcessFile st.tracker p) :=
        filterCongr _ _ rest
          (fun p hp => loopStep_shouldProcess_ne env c st p (fun h => hc (h ▸ hp)))
      rw [hstep, ih _ hrest, loopStep_processed, hfil, List.filter_cons_of_pos hg]
      simp
    · have hstep : runLoop env true (c :: rest) st = runLoop env true rest st := by
        simp [runLoop, hg]
      rw [hstep, ih _ hrest,
        List.filter_cons_of_neg (by simpa using hg)]

/-- The prefix of a list up to and including its first element failing the
predicate. -/
def takeThroughFail (f : String → Bool) : List String → List String
  | [] => []
  | c :: rest => if f c then c :: takeThroughFail f rest else [c]

/-- With `continue_on_error` off, the loop stops right after the first
failed candidate: it handles the allowed candidates up to and including that
first failure and no further one. -/
theorem runLoop_processed_contFalse (env : LoopEnv) (cands : List String) :
    ∀ st : LoopState, cands.Nodup →
      (runLoop env false cands st).processed
        = st.processed
            ++ takeThroughFail (oracleSucc env)
                 (cands.filter (fun p => shouldProcessFile st.tracker p)) := by
  induction cands with
  | nil => intro st _; simp [runLoop, takeThroughFail]
  | cons c rest ih =>
    intro st hnd
    obtain ⟨hc, hrest⟩ := List.nodup_cons.mp hnd
    by_cases hg : shouldProcessFile st.tracker c
    · by_cases hs : oracleSucc env c = true
      · have hstep : runLoop env false (c :: rest) st
            = runLoop env false rest (loopStep env c st).2 := by
          simp [runLoop, hg, loopStep_fst, hs]
        have hfil : rest.filter (fun p => shouldProcessFile (loopStep env c st).2.tracker p)
            = rest.filter (fun p => shouldProcessFile st.tracker p) :=
          filterCongr _ _ rest
            (fun p hp => loopStep_shouldProcess_ne env c st p (fun h => hc (h ▸ hp)))
        rw [hstep, ih _ hrest, loopStep_processed, hfil, List.filter_cons_of_pos hg]
        simp [takeThroughFail, hs]
      · have hs' : oracleSucc env c = false := by
          cases h : oracleSucc env c
          · rfl
          · exact absurd h hs
        have hstep : runLoop env false (c :: rest) st = (loopStep env c st).2 := by
          simp [runLoop, hg, loopStep_fst, hs']
        rw [hstep, loopStep_processed, List.filter_cons_of_pos hg]
        simp [takeThroughFail, hs']
    · have hstep : runLoop env false (c :: rest) st = runLoop env false rest st := by
        simp [runLoop, hg]
      rw [hstep, ih _ hrest,
        List.filter_cons_of_neg (by simpa using hg)]

/-- Whatever the continue-on-error policy, the success counter of the run
result counts exactly the successfully converted files among those the loop
handled. -/
theorem runLoop_succeeded_count (env : LoopEnv) (b : Bool) (cands : List String) :
    ∀ st : LoopState,
      ∃ new : List String,
        (runLoop env b cands st).processed = st.processed ++ new ∧
        (runLoop env b cands st).results.files_succeeded
          = st.results.files_succeeded + new.countP (fun p => oracleSucc env p) := by
  induction cands with
  | nil => intro st; exact ⟨[], by simp [runLoop], by simp [runLoop]⟩
  | cons c rest ih =>
    intro st
    by_cases hg : shouldProcessFile st.tracker c
    · cases hb : (!(loopStep env c st).1 && !b)
      · have hstep : runLoop env b (c :: rest) st
            = runLoop env b rest (loopStep env c st).2 := by
          simp only [runLoop, if_pos hg]
          rw [hb]
          rfl
        obtain ⟨new, h1, h2⟩ := ih (loopStep env c st).2
        refine ⟨c :: new, ?_, ?_⟩
        · rw [hstep, h1, loopStep_processed]
          simp
        · rw [hstep, h2, loopStep_results_succeeded]
          rw [List.countP_cons]
          cases hsucc : oracleSucc env c <;> simp [hsucc] <;> omega
      · have hstep : runLoop env b (c :: rest) st = (loopStep env c st).2 := by
          simp only [runLoop, if_pos hg]
          rw [hb]
          rfl
        refine ⟨[c], ?_, ?_⟩
        · rw [hstep, loopStep_processed]
        · rw [hstep, loopStep_results_succeeded]
          cases hsucc : oracleSucc env c <;> simp [List.countP_cons, hsucc]
    · have hstep : runLoop env b (c :: rest) st = runLoop env b rest st := by
        simp [runLoop, hg]
      obtain ⟨new, h1, h2⟩ := ih st
      exact ⟨new, by rw [hstep, h1], by rw [hstep, h2]⟩

/-! ### Claim C2 -/

/-- Pairwise disjointness of the three terminal buckets of a tracker. -/
def DisjointBuckets (t : ProgressTracker) : Prop :=
  t.completed_files.Disjoint (t.failed_files.map (·.file)) ∧
  t.completed_files.Disjoint t.skipped_files ∧
  (t.failed_files.map (·.file)).Disjoint t.skipped_files

theorem disjoint_append_singleton {l1 l2 : List String} (x : String)
    (h : l1.Disjoint l2) (hx : x ∉ l2) : (l1 ++ [x]).Disjoint l2 := by
  intro a ha hb
  rcases List.mem_append.mp ha with ha | ha
  · exact h ha hb
  · rw [List.mem_singleton] at ha
    subst ha
    exact hx hb

theorem disjoint_append_singleton_right {l1 l2 : List String} (x : String)
    (h : l1.Disjoint l2) (hx : x ∉ l1) : l1.Disjoint (l2 ++ [x]) := by
  intro a ha hb
  rcases List.mem_append.mp hb with hb | hb
  · exact h ha hb
  · rw [List.mem_singleton] at hb
    subst hb
    exact hx ha

/-- One guarded orchestrator consideration preserves bucket disjointness. -/
theorem disjointBuckets_guardedStep (t : ProgressTracker) (op : TrackerOp)
    (h : DisjointBuckets t) : DisjointBuckets (guardedStep t op) := by
  unfold guardedStep
  by_cases hg : shouldProcessFile t op.path
  · rw [if_pos hg]
    obtain ⟨hcm, hfm, hsm⟩ := (shouldProcessFile_iff t op.path).mp hg
    obtain ⟨h1, h2, h3⟩ := h
    cases op with
    | complete p tok cost now =>
        refine ⟨?_, ?_, ?_⟩ <;>
          simp only [applyOp, completeFile_completed, completeFile_failed,
            completeFile_skipped]
        · exact disjoint_append_singleton p h1 hfm
        · exact disjoint_append_singleton p h2 hsm
        · exact h3
    | fail p e ts =>
        refine ⟨?_, ?_, ?_⟩ <;>
          simp only [applyOp, failFile_completed, failFile_failed, failFile_skipped,
            List.map_append, List.map_cons, List.map_nil]
        · exact disjoint_append_singleton_right p h1 hcm
        · exact h2
        · exact disjoint_append_singleton p h3 hsm
    | skip p reason =>
        refine ⟨h1, ?_, ?_⟩
        · exact disjoint_append_singleton_right p h2 hcm
        · exact disjoint_append_singleton_right p h3 hfm
  · rw [if_neg hg]
    exact h

/-- Claim C2: from any tracker whose Completed, Failed and Skipped buckets
are pairwise disjoint (in particular the fresh empty tracker), every state
reachable by a run of guarded orchestrator considerations — each candidate
checked by `should_process_file` and then moved to one terminal bucket by
`complete_file`, `fail_file` or `skip_file`, or left pending — keeps the
three buckets pairwise disjoint; intermediate loop states are the final
states of shorter runs. -/
theorem orchestrator_buckets_disjoint (ops : List TrackerOp) (t : ProgressTracker)
    (h : DisjointBuckets t) : DisjointBuckets (guardedRun ops t) := by
  induction ops generalizing t with
  | nil => exact h
  | cons o rest ih => exact ih _ (disjointBuckets_guardedStep t o h)

/-- Concrete instance of C2: a complete, a fail and a skip on distinct
candidates from the fresh tracker keep the buckets disjoint. -/
theorem orchestrator_buckets_disjoint_witness :
    DisjointBuckets (freshTracker 3 0) ∧
    DisjointBuckets (guardedRun
      [TrackerOp.complete "a" 1 1 0, TrackerOp.fail "b" "err" "t1",
       TrackerOp.skip "c" "r"] (freshTracker 3 0)) :=
  have h0 : DisjointBuckets (freshTracker 3 0) :=
    ⟨fun _ ha _ => absurd ha (List.not_mem_nil _),
     fun _ ha _ => absurd ha (List.not_mem_nil _),
     fun _ ha _ => absurd ha (List.not_mem_nil _)⟩
  ⟨h0, orchestrator_buckets_disjoint _ _ h0⟩

/-! ### Claim C3 -/

/-- Claim C3: `should_process_file` is true exactly when the path is in none
of the Completed, Failed and Skipped buckets; consequently a loop started
(with the default continue-on-error policy) from a tracker loaded from a
persisted RunState hands to conversion exactly the candidates outside the
loaded terminal buckets, skipping exactly the previously-terminal ones.
Candidate lists come from the deterministic discovery walk, whose paths are
distinct, hence the `Nodup` hypothesis. -/
theorem should_process_resume :
    (∀ (t : ProgressTracker) (p : String),
        shouldProcessFile t p = true ↔
          p ∉ t.completed_files ∧ p ∉ t.failed_files.map (·.file) ∧
          p ∉ t.skipped_files) ∧
    (∀ (env : LoopEnv) (t0 : ProgressTracker) (c0 : SymbolCache)
        (cands : List String), cands.Nodup →
        (runLoop env true cands (mkInit t0 c0)).processed
          = cands.filter (fun p => shouldProcessFile t0 p)) := by
  refine ⟨shouldProcessFile_iff, ?_⟩
  intro env t0 c0 cands hnd
  rw [runLoop_processed_contTrue env cands (mkInit t0 c0) hnd]
  rfl

/-- A concrete environment: an oracle succeeding on every file, a trivial
extraction heuristic, zero clock. -/
def envAllOk : LoopEnv :=
  { oracle := fun _ => .success 1 1 "code"
    extract := fun _ c => c
    clock := fun _ => 0
    stamp := fun _ => "ts" }

/-- A tracker as loaded from a persisted RunState with file "a" already
completed. -/
def resumedTracker : ProgressTracker :=
  { freshTracker 2 0 with completed_files := ["a"] }

/-- Concrete instance of C3: resuming with "a" completed processes exactly
"b". -/
theorem should_process_resume_witness :
    (["a", "b"] : List String).Nodup ∧
    (runLoop envAllOk true ["a", "b"] (mkInit resumedTracker emptyCache)).processed
      = ["a", "b"].filter (fun p => shouldProcessFile resumedTracker p) :=
  ⟨by decide,
    should_process_resume.2 envAllOk resumedTracker emptyCache ["a", "b"] (by decide)⟩

/-! ### Claim C7 -/

/-- Claim C7: an exception escaping the conversion of a file is caught and
turned into a `fail_file` transition with a false return — the total
function below is the whole of the exception handling, nothing propagates to
the loop; with continue-on-error on, the loop goes on to every remaining
allowed candidate; with it off, the loop stops immediately after the first
failure; and in both cases the run result counts exactly the files completed
so far. -/
theorem oracle_failure_contained :
    (∀ (env : LoopEnv) (path : String) (st : LoopState) (step : Nat) (e : String),
        env.oracle path = .exn e →
        convertSingleFile env path st step =
          (false,
            { st with tracker := failFile (startFile st.tracker path (env.clock step)) path e (env.stamp step) })) ∧
    (∀ (env : LoopEnv) (t0 : ProgressTracker) (c0 : SymbolCache)
        (cands : List String), cands.Nodup →
        (runLoop env true cands (mkInit t0 c0)).processed
          = cands.filter (fun p => shouldProcessFile t0 p)) ∧
    (∀ (env : LoopEnv) (t0 : ProgressTracker) (c0 : SymbolCache)
        (cands : List String), cands.Nodup →
        (runLoop env false cands (mkInit t0 c0)).processed
          = takeThroughFail (oracleSucc env)
              (cands.filter (fun p => shouldProcessFile t0 p))) ∧
    (∀ (env : LoopEnv) (b : Bool) (t0 : ProgressTracker) (c0 : SymbolCache)
        (cands : List String),
        (runLoop env b cands (mkInit t0 c0)).results.files_succeeded
          = ((runLoop env b cands (mkInit t0 c0)).processed).countP
              (fun p => oracleSucc env p)) := by
  refine ⟨?_, ?_, ?_, ?_⟩
  · intro env path st step e h
    unfold convertSingleFile convertBody
    simp [h]
  · intro env t0 c0 cands hnd
    rw [runLoop_processed_contTrue env cands (mkInit t0 c0) hnd]
    rfl
  · intro env t0 c0 cands hnd
    rw [runLoop_processed_contFalse env cands (mkInit t0 c0) hnd]
    rfl
  · intro env b t0 c0 cands
    obtain ⟨new, h1, h2⟩ := runLoop_succeeded_count env b cands (mkInit t0 c0)
    rw [h1, h2]
    simp [mkInit]

/-- An environment whose oracle raises on every file. -/
def envAllRaise : LoopEnv :=
  { oracle := fun _ => .exn "boom"
    extract := fun _ c => c
    clock := fun _ => 0
    stamp := fun _ => "ts" }

/-- Concrete instance of C7: the exception from converting "a" is caught and
becomes a Failed transition. -/
theorem oracle_failure_contained_witness :
    envAllRaise.oracle "a" = .exn "boom" ∧
    convertSingleFile envAllRaise "a" (initLoopState 1 0) 0 =
      (false,
        { initLoopState 1 0 with tracker := failFile (startFile (initLoopState 1 0).tracker "a" (envAllRaise.clock 0)) "a" "boom" (envAllRaise.stamp 0) }) :=
  ⟨rfl, oracle_failure_contained.1 envAllRaise "a" (initLoopState 1 0) 0 "boom" rfl⟩

/-! ### Persistence schedule (claim C5) -/

/-- Scan state for the claimed per-outcome persistence discipline: `some b`
with `b` marking an outcome not yet followed by a persist; `none` marks a
violation — two outcomes with no persist between them. -/
def sepState : Option Bool → RunEvent → Option Bool
  | none, _ => none
  | some _, .persist => some false
  | some pending, .outcome _ _ => if pending then none else some true

/-- Scan state for "every failure is immediately followed by a persist":
`some true` right after a failure outcome, `none` on a violation. -/
def failState : Option Bool → RunEvent → Option Bool
  | none, _ => none
  | some true, .persist => some false
  | some true, _ => none
  | some false, .persist => some false
  | some false, .outcome _ true => some false
  | some false, .outcome _ false => some true

/-- Completions recorded since the most recent persist. -/
def stepF (c : Nat) (e : RunEvent) : Nat :=
  match e with
  | .outcome _ true => c + 1
  | .outcome _ false => c
  | .persist => 0

/-- Whether the `complete_file` call of this iteration ends by saving. -/
def savedAfter (env : LoopEnv) (c : String) (st : LoopState) : Bool :=
  completeTriggersSave
    (convertSingleFile env c st st.results.files_processed).2.tracker

/-- The events one taken loop iteration appends to the trace. -/
theorem loopStep_trace (env : LoopEnv) (c : String) (st : LoopState) :
    (loopStep env c st).2.trace = st.trace ++
      ((if oracleSucc env c then
          (if savedAfter env c st then [RunEvent.outcome c true, RunEvent.persist]
           else [RunEvent.outcome c true])
        else [RunEvent.outcome c false, RunEvent.persist])
       ++ (if (st.results.files_processed + 1) % 5 == 0 then [RunEvent.persist]
           else [])) := by
  simp [loopStep, savedAfter, convertSingleFile_fst,
    (convertSingleFile_state env c st st.results.files_processed).2.1,
    List.append_assoc]

theorem loopStep_completed_success (env : LoopEnv) (c : String) (st : LoopState)
    (tok : Nat) (cost : ℚ) (code : String) (h : env.oracle c = .success tok cost code) :
    (loopStep env c st).2.tracker.completed_files
      = st.tracker.completed_files ++ [c] := by
  rw [loopStep_tracker,
    convertSingleFile_tracker_success env c st _ tok cost code h, completeFile_completed]
  rfl

theorem loopStep_completed_failure (env : LoopEnv) (c : String) (st : LoopState)
    (e : String) (h : env.oracle c = .failure e) :
    (loopStep env c st).2.tracker.completed_files = st.tracker.completed_files := by
  rw [loopStep_tracker,
    convertSingleFile_tracker_failure env c st _ e h, failFile_completed]
  rfl

theorem loopStep_completed_exn (env : LoopEnv) (c : String) (st : LoopState)
    (e : String) (h : env.oracle c = .exn e) :
    (loopStep env c st).2.tracker.completed_files = st.tracker.completed_files := by
  rw [loopStep_tracker,
    convertSingleFile_tracker_exn env c st _ e h, failFile_completed]
  rfl

theorem savedAfter_success (env : LoopEnv) (c : String) (st : LoopState)
    (tok : Nat) (cost : ℚ) (code : String) (h : env.oracle c = .success tok cost code) :
    savedAfter env c st = ((st.tracker.completed_files.length + 1) % 5 == 0) := by
  unfold savedAfter completeTriggersSave
  rw [convertSingleFile_tracker_success env c st _ tok cost code h, completeFile_completed]
  simp [startFile]

/-- The two trace invariants of one taken iteration: failures stay
immediately persisted, and the completions since the last persist stay below
the completed count modulo 5. -/
theorem traceInv_loopStep (env : LoopEnv) (c : String) (st : LoopState)
    (h1 : st.trace.foldl failState (some false) = some false)
    (h2 : st.trace.foldl stepF 0 ≤ st.tracker.completed_files.length % 5) :
    (loopStep env c st).2.trace.foldl failState (some false) = some false ∧
    (loopStep env c st).2.trace.foldl stepF 0
      ≤ (loopStep env c st).2.tracker.completed_files.length % 5 := by
  cases henv : env.oracle c with
  | success tok cost code =>
    have hsucc : oracleSucc env c = true := by simp [oracleSucc, henv]
    have hlen : (loopStep env c st).2.tracker.completed_files.length
        = st.tracker.completed_files.length + 1 := by
      rw [loopStep_completed_success env c st tok cost code henv]
      simp
    rw [loopStep_trace, hsucc, savedAfter_success env c st tok cost code henv, hlen]
    by_cases h5 : (st.tracker.completed_files.length + 1) % 5 = 0 <;>
      by_cases hp : (st.results.files_processed + 1) % 5 = 0 <;>
      simp only [h5, hp, beq_iff_eq, if_pos, if_neg, if_true, if_false,
        List.foldl_append, List.foldl_cons, List.foldl_nil, failState, stepF, h1,
        if_true] <;>
      constructor <;> first
        | rfl
        | omega
        | (simp [failState, stepF, h5, hp]; omega)
        | simp [failState, stepF, h5, hp]
  | failure e =>
    have hsucc : oracleSucc env c = false := by simp [oracleSucc, henv]
    have hlen : (loopStep env c st).2.tracker.completed_files.length
        = st.tracker.completed_files.length := by
      rw [loopStep_completed_failure env c st e henv]
    rw [loopStep_trace, hsucc, hlen]
    by_cases hp : (st.results.files_processed + 1) % 5 = 0 <;>
      simp [List.foldl_append, failState, stepF, h1, hp]
  | exn e =>
    have hsucc : oracleSucc env c = false := by simp [oracleSucc, henv]
    have hlen : (loopStep env c st).2.tracker.completed_files.length
        = st.tracker.completed_files.length := by
      rw [loopStep_completed_exn env c st e henv]
    rw [loopStep_trace, hsucc, hlen]
    by_cases hp : (st.results.files_processed + 1) % 5 = 0 <;>
      simp [List.foldl_append, failState, stepF, h1, hp]

/-- The trace invariants hold at the end of the loop from any state that
satisfies them (so also at every file boundary: a boundary state is the
final state of the loop over the corresponding candidate prefix). -/
theorem runLoop_traceInv (env : LoopEnv) (b : Bool) (cands : List String) :
    ∀ st : LoopState,
      st.trace.foldl failState (some false) = some false →
      st.trace.foldl stepF 0 ≤ st.tracker.completed_files.length % 5 →
      (runLoop env b cands st).trace.foldl failState (some false) = some false ∧
      (runLoop env b cands st).trace.foldl stepF 0
        ≤ (runLoop env b cands st).tracker.completed_files.length % 5 := by
  induction cands with
  | nil => intro st h1 h2; exact ⟨h1, h2⟩
  | cons c rest ih =>
    intro st h1 h2
    by_cases hg : shouldProcessFile st.tracker c
    · obtain ⟨h1', h2'⟩ := traceInv_loopStep env c st h1 h2
      cases hb : (!(loopStep env c st).1 && !b)
      · have hstep : runLoop env b (c :: rest) st
            = runLoop env b rest (loopStep env c st).2 := by
          simp only [runLoop, if_pos hg]
          rw [hb]
          rfl
        rw [hstep]
        exact ih _ h1' h2'
      · have hstep : runLoop env b (c :: rest) st = (loopStep env c st).2 := by
          simp only [runLoop, if_pos hg]
          rw [hb]
          rfl
        rw [hstep]
        exact ⟨h1', h2'⟩
    · have hstep : runLoop env b (c :: rest) st = runLoop env b rest st := by
        simp [runLoop, hg]
      rw [hstep]
      exact ih st h1 h2

/-- The run trace is the loop trace followed by the final unconditional
persist. -/
theorem runProject_trace (env : LoopEnv) (b : Bool) (cands : List String)
    (st : LoopState) :
    (runProject env b cands st).trace
      = (runLoop env b cands st).trace ++ [RunEvent.persist] := rfl

/-- Claim C5 counterexample: in a two-file run where both conversions
succeed, the RunState is not persisted between the first and the second
outcome — the first completion (completed count 1, not a multiple of 5)
triggers no save — so persistence after every single-file outcome fails. -/
theorem persist_each_outcome_cex :
    (runProject envAllOk true ["a", "b"] (initLoopState 2 0)).trace
      = [RunEvent.outcome "a" true, RunEvent.outcome "b" true, RunEvent.persist] ∧
    (runProject envAllOk true ["a", "b"] (initLoopState 2 0)).trace.foldl sepState
      (some false) = none := by
  constructor <;> decide

/-- Claim C5 amended: RunState is persisted immediately after every failure
outcome, after every completion that makes the completed count a multiple of
5, after every 5th processed file and once more when the loop ends — not
after every single outcome.  Hence in the run trace every failure is
followed at once by a persist, the trace ends with a persist, and at every
file boundary at most 4 completed files are unpersisted (the completions
since the last persist never exceed the completed count modulo 5), so an
interruption between files loses the bookkeeping of at most 4 completed
files plus the in-flight file. -/
theorem persist_schedule (env : LoopEnv) (b : Bool) (cands : List String)
    (n : Nat) (now : ℚ) :
    (runProject env b cands (initLoopState n now)).trace.foldl failState
        (some false) = some false ∧
    (runLoop env b cands (initLoopState n now)).trace.foldl stepF 0 ≤ 4 ∧
    (runProject env b cands (initLoopState n now)).trace.getLast?
      = some RunEvent.persist := by
  obtain ⟨h1, h2⟩ := runLoop_traceInv env b cands (initLoopState n now) rfl
    (by simp [initLoopState, mkInit, freshTracker])
  refine ⟨?_, ?_, ?_⟩
  · rw [runProject_trace, List.foldl_append, h1]
    rfl
  · omega
  · rw [runProject_trace]
    exact List.getLast?_concat _
